import Mathlib

/-!
Verification of the history-metadata module (`data/src/history/metadata.rs`).

The module persists per-conversation bookkeeping records: a read marker,
the timestamp of the last unread-triggering message, and a chat-history
resume reference.  We embed the data model and the load/save/update
persistence protocol shallowly:

* timestamps (`DateTime<Utc>`) are modelled as integers at millisecond
  resolution, which is the on-disk precision of the format; at this
  resolution, truncation to millisecond precision is the identity;
* the filesystem is a map from the scope's composite name (the string the
  source hashes to obtain the file stem; equal names give equal paths) to a
  read outcome: read failure (missing file or I/O error), or file content;
* file content is either a faithfully serialized `Metadata` or corrupt
  bytes that fail to deserialize; `serde_json::to_vec` may fail, which we
  model by an environment predicate, and `dir_path()` may fail, modelled by
  an environment flag;
* the async functions `load`, `save`, `update` become pure state-passing
  functions over the store, mirroring the source's order of effects;
  `fs::write` itself is modelled as always succeeding (partially written
  files are outside the scope of the properties verified here).
-/

namespace HalloyMetadata

/-- UTC instants at millisecond resolution. -/
abbrev Timestamp := Int

/-- Truncation of an instant to millisecond precision.  Instants are already
modelled at millisecond resolution, so this is the identity map. -/
def truncToMillis (t : Timestamp) : Timestamp := t

/-- Embeds `struct ReadMarker(DateTime<Utc>)`. -/
structure ReadMarker where
  time : Timestamp
deriving DecidableEq

/-- Boolean comparison `a <= b` on read markers; the source derives `Ord`
from the wrapped instant. -/
def ReadMarker.ble (a b : ReadMarker) : Bool := decide (a.time ≤ b.time)

/-- Truncation of a read marker to millisecond precision (identity at the
model's resolution). -/
def ReadMarker.truncToMillis (m : ReadMarker) : ReadMarker :=
  ⟨HalloyMetadata.truncToMillis m.time⟩

/-- Embeds `struct MessageReferences { timestamp, id }`. -/
structure MessageReferences where
  timestamp : Timestamp
  id : Option String
deriving DecidableEq

/-- Embeds `source::Internal`: the payload of `Status(_)` is irrelevant to
this module (the source matches it with a wildcard). -/
inductive Internal
  | status
  | logs
deriving DecidableEq

/-- Embeds `source::Source` as this module observes it: internal sources,
and everything else collapsed into one catch-all constructor (the source
matches all non-internal variants with `_ => true`). -/
inductive Source
  | internal (i : Internal)
  | other
deriving DecidableEq

/-- The external message model, reduced to the fields and predicates this
module consumes: `server_time`, `target.source()`, `triggers_unread()`,
`can_reference()` and `references()`. -/
structure Message where
  server_time : Timestamp
  target_source : Source
  triggers_unread : Bool
  can_reference : Bool
  references : MessageReferences
deriving DecidableEq

/-- Embeds `ReadMarker::latest`: iterate the messages in reverse, find the
first whose source is not internal status (logs are eligible), and wrap its
`server_time`. -/
def ReadMarker.latest (messages : List Message) : Option ReadMarker :=
  ((messages.reverse.find? fun message =>
      match message.target_source with
      | .internal i =>
        match i with
        | .status => false
        | .logs => true
      | _ => true).map
    fun message => message.server_time).map ReadMarker.mk

/-- Embeds `isupport::MessageReferenceType`. -/
inductive MessageReferenceType
  | messageId
  | timestamp
deriving DecidableEq

/-- Embeds `isupport::MessageReference`. -/
inductive MessageReference
  | messageId (id : String)
  | timestamp (t : Timestamp)
  | none
deriving DecidableEq

/-- Embeds `MessageReferences::message_reference`: the source's `for` loop
over the preference list, returning at the first satisfiable kind and
falling through to `MessageReference::None`. -/
def MessageReferences.message_reference (self : MessageReferences) :
    List MessageReferenceType → MessageReference
  | [] => .none
  | .messageId :: rest =>
    match self.id with
    | some id => .messageId id
    | Option.none => self.message_reference rest
  | .timestamp :: _ => .timestamp self.timestamp

/-- Embeds `impl PartialEq for MessageReferences`: equality on `timestamp`
only. -/
def MessageReferences.eq (a b : MessageReferences) : Bool :=
  a.timestamp == b.timestamp

/-- Embeds `impl Ord for MessageReferences`: comparison on `timestamp`
only. -/
def MessageReferences.cmp (a b : MessageReferences) : Ordering :=
  compare a.timestamp b.timestamp

/-- Embeds `latest_triggers_unread`. -/
def latest_triggers_unread (messages : List Message) : Option Timestamp :=
  (messages.reverse.find? fun message => message.triggers_unread).map
    fun message => message.server_time

/-- Embeds `latest_can_reference`. -/
def latest_can_reference (messages : List Message) : Option MessageReferences :=
  (messages.reverse.find? fun message => message.can_reference).map
    fun message => message.references

/-- Embeds `struct Metadata`. -/
structure Metadata where
  read_marker : Option ReadMarker
  last_triggers_unread : Option Timestamp
  chathistory_references : Option MessageReferences
deriving DecidableEq

/-- Embeds `Metadata::default()`: all fields absent. -/
def Metadata.default : Metadata := ⟨Option.none, Option.none, Option.none⟩

/-- Embeds `history::Kind`, the conversation scope.  Server, channel and
nick identifiers are rendered through `Display` in the source; we model
them directly as the rendered strings. -/
inductive Kind
  | server (server : String)
  | channel (server channel : String)
  | query (server nick : String)
  | logs
  | highlights
deriving DecidableEq

/-- Embeds the composite name built inside `path`: the string that is
hashed to obtain the file stem.  Equal composite names yield equal hashes,
hence equal file paths. -/
def compositeName : Kind → String
  | .server server => server ++ "-metadata"
  | .channel server channel => server ++ "channel" ++ channel ++ "-metadata"
  | .query server nick => server ++ "nickname" ++ nick ++ "-metadata"
  | .logs => "logs-metadata"
  | .highlights => "highlights-metadata"

/-- File content as the deserializer sees it: a faithfully serialized
`Metadata`, or bytes that fail to parse as the schema. -/
inductive FileContent
  | valid (m : Metadata)
  | corrupt
deriving DecidableEq

/-- Outcome of `fs::read` at a path: failure (missing file or I/O error),
or the file's content. -/
inductive ReadOutcome
  | readFailure
  | ok (c : FileContent)
deriving DecidableEq

/-- The filesystem, as a map from composite scope names to read outcomes.
The actual path is the hash of the composite name inside the history
directory; the composite name determines it. -/
abbrev Store := String → ReadOutcome

/-- Overwrite (`fs::write`) of one file. -/
def Store.write (s : Store) (p : String) (c : FileContent) : Store :=
  fun q => if q = p then .ok c else s q

/-- The error kinds this module can propagate: directory resolution failure
from `dir_path()`, and serialization failure from `serde_json::to_vec`. -/
inductive Error
  | directory
  | serde
deriving DecidableEq

/-- Environment of the external collaborators: whether `dir_path()`
succeeds, and which values `serde_json::to_vec` fails on. -/
structure Env where
  dirOk : Bool
  serFails : Metadata → Bool

/-- Embeds the `path` function: resolve the history directory (may fail),
then key the file by the scope's composite name. -/
def path (env : Env) (kind : Kind) : Except Error String :=
  if env.dirOk then .ok (compositeName kind) else .error .directory

/-- Embeds `serde_json::to_vec` of a `Metadata`. -/
def serialize (env : Env) (m : Metadata) : Except Error FileContent :=
  if env.serFails m then .error .serde else .ok (.valid m)

/-- Embeds `serde_json::from_slice::<Metadata>`. -/
def deserialize : FileContent → Option Metadata
  | .valid m => some m
  | .corrupt => Option.none

/-- Embeds `load`: resolve the path, then read; a read failure yields the
default, and unparsable content is `unwrap_or_default`-ed. -/
def load (env : Env) (store : Store) (kind : Kind) : Except Error Metadata :=
  match path env kind with
  | .error e => .error e
  | .ok p =>
    match store p with
    | .readFailure => .ok Metadata.default
    | .ok bytes => .ok ((deserialize bytes).getD Metadata.default)

/-- The record literal `save` builds: the caller's marker plus the derived
fields recomputed from the message list. -/
def savedMetadata (messages : List Message) (read_marker : Option ReadMarker) :
    Metadata :=
  { read_marker := read_marker
    last_triggers_unread := latest_triggers_unread messages
    chathistory_references := latest_can_reference messages }

/-- Embeds `save`: serialize the freshly built record (derived fields
recomputed from the message list), then resolve the path, then overwrite
the file.  The pair returned is (result, filesystem after the call). -/
def save (env : Env) (store : Store) (kind : Kind) (messages : List Message)
    (read_marker : Option ReadMarker) : Except Error Unit × Store :=
  match serialize env (savedMetadata messages read_marker) with
  | .error e => (.error e, store)
  | .ok bytes =>
    match path env kind with
    | .error e => (.error e, store)
    | .ok p => (.ok (), Store.write store p bytes)

/-- The record literal `update` builds: the loaded record with only
`read_marker` replaced by the candidate. -/
def updatedMetadata (metadata : Metadata) (read_marker : ReadMarker) :
    Metadata :=
  { read_marker := some read_marker
    last_triggers_unread := metadata.last_triggers_unread
    chathistory_references := metadata.chathistory_references }

/-- Embeds `update`: load the existing record; if its read marker is
present and at least the candidate, return success without writing;
otherwise serialize a record that replaces only `read_marker`, resolve the
path and overwrite the file. -/
def update (env : Env) (store : Store) (kind : Kind) (read_marker : ReadMarker) :
    Except Error Unit × Store :=
  match load env store kind with
  | .error e => (.error e, store)
  | .ok metadata =>
    if metadata.read_marker.any (fun stored => ReadMarker.ble read_marker stored) then
      (.ok (), store)
    else
      match serialize env (updatedMetadata metadata read_marker) with
      | .error e => (.error e, store)
      | .ok bytes =>
        match path env kind with
        | .error e => (.error e, store)
        | .ok p => (.ok (), Store.write store p bytes)

/-! Definitions taken from the specification's wording, used on the
specification side of the refinement theorems below. -/

/-- Modelled from the spec: "scans the message sequence from most recent to
oldest; returns the first message for which [the predicate] holds, else
none" — the last element of the list satisfying the predicate. -/
def lastSatisfying (p : Message → Bool) : List Message → Option Message
  | [] => Option.none
  | message :: rest =>
    match lastSatisfying p rest with
    | some found => some found
    | Option.none => if p message then some message else Option.none

/-- Modelled from the spec: "a message is ineligible only if its source is
classified internal status; messages classified internal logs and all other
sources are eligible". -/
def eligibleSpec (message : Message) : Bool :=
  match message.target_source with
  | .internal .status => false
  | _ => true

/-- Modelled from the spec: which reference kinds this instance "can
satisfy" — `MessageId` only when `id` is present, `Timestamp` always. -/
def satisfies (r : MessageReferences) : MessageReferenceType → Bool
  | .messageId => r.id.isSome
  | .timestamp => true

/-- Modelled from the spec: "returns the first kind in that list that this
instance can satisfy", the none marker when no listed kind is
satisfiable. -/
def firstSatisfiable (r : MessageReferences) (types : List MessageReferenceType) :
    MessageReference :=
  match types.find? (satisfies r) with
  | Option.none => .none
  | some .timestamp => .timestamp r.timestamp
  | some .messageId =>
    match r.id with
    | some id => .messageId id
    | Option.none => .none

/-! Helper lemmas. -/

theorem find?_append_msg (p : Message → Bool) (l₁ l₂ : List Message) :
    (l₁ ++ l₂).find? p =
      match l₁.find? p with
      | some x => some x
      | Option.none => l₂.find? p := by
  induction l₁ with
  | nil => simp
  | cons a t ih =>
    cases h : p a with
    | true => simp [List.find?_cons, h]
    | false => simp [List.find?_cons, h, ih]

theorem find?_reverse_eq_lastSatisfying (p : Message → Bool) (l : List Message) :
    l.reverse.find? p = lastSatisfying p l := by
  induction l with
  | nil => rfl
  | cons m rest ih =>
    rw [List.reverse_cons, find?_append_msg, ih]
    cases h : lastSatisfying p rest with
    | some found => simp [lastSatisfying, h]
    | none =>
      cases hp : p m with
      | true => simp [lastSatisfying, h, List.find?, hp]
      | false => simp [lastSatisfying, h, List.find?, hp]

theorem lastSatisfying_eq_none_of_all_false (p : Message → Bool)
    (l : List Message) (h : ∀ m ∈ l, p m = false) :
    lastSatisfying p l = Option.none := by
  induction l with
  | nil => rfl
  | cons m rest ih =>
    have hrest : lastSatisfying p rest = Option.none :=
      ih fun x hx => h x (List.mem_cons_of_mem _ hx)
    simp [lastSatisfying, hrest, h m (List.mem_cons_self m rest)]

/-- What a successful path resolution yields. -/
theorem path_dirOk (env : Env) (kind : Kind) (h : env.dirOk = true) :
    path env kind = .ok (compositeName kind) := by
  simp [path, h]

/-- Path resolution fails exactly when the directory cannot be resolved. -/
theorem path_dirBad (env : Env) (kind : Kind) (h : env.dirOk = false) :
    path env kind = .error .directory := by
  simp [path, h]

/-- The record `load` produces once the path has resolved. -/
def loadResult (store : Store) (kind : Kind) : Metadata :=
  match store (compositeName kind) with
  | .readFailure => Metadata.default
  | .ok bytes => (deserialize bytes).getD Metadata.default

theorem load_dirOk (env : Env) (store : Store) (kind : Kind)
    (h : env.dirOk = true) :
    load env store kind = .ok (loadResult store kind) := by
  unfold load loadResult
  rw [path_dirOk env kind h]
  cases h' : store (compositeName kind) <;> simp [h']

theorem load_dirBad (env : Env) (store : Store) (kind : Kind)
    (h : env.dirOk = false) :
    load env store kind = .error .directory := by
  unfold load
  rw [path_dirBad env kind h]

theorem load_ok_dirOk (env : Env) (store : Store) (kind : Kind)
    (m : Metadata) (h : load env store kind = .ok m) :
    env.dirOk = true := by
  cases hdir : env.dirOk with
  | true => rfl
  | false =>
    rw [load_dirBad env store kind hdir] at h
    exact Except.noConfusion h

/-- Loading right after writing a valid record returns that record. -/
theorem load_after_write (env : Env) (store : Store) (kind : Kind)
    (m : Metadata) (h : env.dirOk = true) :
    load env (Store.write store (compositeName kind) (.valid m)) kind
      = .ok m := by
  rw [load_dirOk env _ kind h]
  simp [loadResult, Store.write, deserialize]

/-- Exhaustive description of one `update` call: either it leaves the
filesystem untouched, or the loaded record's marker did not dominate the
candidate and it overwrites the scope's file with the loaded record whose
`read_marker` is replaced by the candidate. -/
theorem update_cases (env : Env) (store : Store) (kind : Kind)
    (T : ReadMarker) :
    (update env store kind T).2 = store ∨
    ∃ m, load env store kind = .ok m ∧
      m.read_marker.any (fun stored => ReadMarker.ble T stored) = false ∧
      (update env store kind T).1 = .ok () ∧
      (update env store kind T).2
        = Store.write store (compositeName kind)
            (.valid (updatedMetadata m T)) := by
  cases hdir : env.dirOk with
  | false =>
    left
    simp [update, load_dirBad env store kind hdir]
  | true =>
    have hl := load_dirOk env store kind hdir
    cases hg : (loadResult store kind).read_marker.any
        (fun stored => ReadMarker.ble T stored) with
    | true =>
      left
      simp [update, hl, hg]
    | false =>
      cases hser : env.serFails (updatedMetadata (loadResult store kind) T) with
      | true =>
        left
        simp [update, hl, hg, serialize, hser]
      | false =>
        right
        refine ⟨loadResult store kind, hl, hg, ?_, ?_⟩ <;>
          simp [update, hl, hg, serialize, hser, path, hdir]

/-- C4: `ReadMarker::latest` scans from most recent to oldest and returns
the `server_time` of the first message whose source is not classified
internal status (internal logs and all other sources are eligible); it
returns none on an empty list or a list containing only internal-status
messages. -/
theorem readMarker_latest_spec :
    (∀ messages, ReadMarker.latest messages
        = (lastSatisfying eligibleSpec messages).map
            fun m => ReadMarker.mk m.server_time) ∧
    ReadMarker.latest [] = Option.none ∧
    (∀ messages,
        (∀ m ∈ messages, m.target_source = Source.internal .status) →
        ReadMarker.latest messages = Option.none) := by
  have hpred : (fun message : Message =>
      match message.target_source with
      | .internal i =>
        match i with
        | .status => false
        | .logs => true
      | _ => true) = eligibleSpec := by
    funext message
    cases hs : message.target_source with
    | internal i => cases i <;> simp [eligibleSpec, hs]
    | other => simp [eligibleSpec, hs]
  refine ⟨?_, rfl, ?_⟩
  · intro messages
    unfold ReadMarker.latest
    rw [hpred, find?_reverse_eq_lastSatisfying]
    cases lastSatisfying eligibleSpec messages <;> rfl
  · intro messages h
    unfold ReadMarker.latest
    rw [hpred, find?_reverse_eq_lastSatisfying,
      lastSatisfying_eq_none_of_all_false eligibleSpec messages
        (fun m hm => by simp [eligibleSpec, h m hm])]
    rfl

/-- Witness for C4 at a concrete input: a one-element list holding an
internal-status message yields no read marker. -/
theorem readMarker_latest_spec_witness :
    ReadMarker.latest
        [{ server_time := 0, target_source := .internal .status,
           triggers_unread := false, can_reference := false,
           references := ⟨0, Option.none⟩ }] = Option.none :=
  readMarker_latest_spec.2.2 _ (by decide)

/-- C5: `message_reference` returns the first kind in the preference list
that the instance can satisfy, the none marker when no listed kind is
satisfiable, and list order is authoritative. -/
theorem message_reference_spec :
    (∀ (r : MessageReferences) (types : List MessageReferenceType),
        r.message_reference types = firstSatisfiable r types) ∧
    (∀ (t : Timestamp) (id : String),
        (MessageReferences.mk t (some id)).message_reference
            [.timestamp, .messageId] = .timestamp t) ∧
    (∀ t : Timestamp,
        (MessageReferences.mk t Option.none).message_reference [.messageId]
          = .none) ∧
    (∀ r : MessageReferences, r.message_reference [] = .none) := by
  refine ⟨?_, fun t id => rfl, fun t => rfl, fun r => rfl⟩
  intro r types
  induction types with
  | nil => rfl
  | cons ty rest ih =>
    cases ty with
    | timestamp =>
      simp [MessageReferences.message_reference, firstSatisfiable, satisfies,
        List.find?]
    | messageId =>
      cases hid : r.id with
      | some id =>
        simp [MessageReferences.message_reference, firstSatisfiable,
          satisfies, List.find?, hid]
      | none =>
        simp [MessageReferences.message_reference, firstSatisfiable,
          satisfies, List.find?, hid, ih]

/-- C6: equality and ordering of `MessageReferences` depend solely on the
timestamp field: the result is invariant under any substitution of either
id, and equal timestamps compare equal regardless of ids. -/
theorem references_compare_timestamp_only :
    (∀ (t₁ t₂ : Timestamp) (i₁ i₂ j₁ j₂ : Option String),
        MessageReferences.eq ⟨t₁, i₁⟩ ⟨t₂, i₂⟩
            = MessageReferences.eq ⟨t₁, j₁⟩ ⟨t₂, j₂⟩ ∧
        MessageReferences.cmp ⟨t₁, i₁⟩ ⟨t₂, i₂⟩
            = MessageReferences.cmp ⟨t₁, j₁⟩ ⟨t₂, j₂⟩) ∧
    (∀ a b : MessageReferences, a.timestamp = b.timestamp →
        MessageReferences.eq a b = true) := by
  refine ⟨fun t₁ t₂ i₁ i₂ j₁ j₂ => ⟨rfl, rfl⟩, fun a b h => ?_⟩
  simp [MessageReferences.eq, h]

/-- Witness for C6 at a concrete input: equal timestamps with different
ids compare equal. -/
theorem references_compare_timestamp_only_witness :
    MessageReferences.eq ⟨3, some "a"⟩ ⟨3, Option.none⟩ = true :=
  references_compare_timestamp_only.2 _ _ rfl

/-- C7: `latest_triggers_unread` scans newest-to-oldest and returns the
`server_time` of the first message with `triggers_unread`, else none;
`latest_can_reference` scans newest-to-oldest and returns `references()` of
the first message with `can_reference`, else none. -/
theorem selectors_scan_newest_to_oldest :
    (∀ messages, latest_triggers_unread messages
        = (lastSatisfying (fun m => m.triggers_unread) messages).map
            fun m => m.server_time) ∧
    (∀ messages, latest_can_reference messages
        = (lastSatisfying (fun m => m.can_reference) messages).map
            fun m => m.references) := by
  constructor <;> intro messages
  · unfold latest_triggers_unread
    rw [find?_reverse_eq_lastSatisfying]
  · unfold latest_can_reference
    rw [find?_reverse_eq_lastSatisfying]

/-- C9: the scope-to-composite-name mapping is not injective: the distinct
scopes `Server "AchannelB"` and `Channel "A" "B"` produce the same
composite name, hence the same file path, and likewise `Server "AnicknameB"`
and `Query "A" "B"`. -/
theorem scope_name_collision :
    Kind.server "AchannelB" ≠ Kind.channel "A" "B" ∧
    compositeName (Kind.server "AchannelB")
        = compositeName (Kind.channel "A" "B") ∧
    Kind.server "AnicknameB" ≠ Kind.query "A" "B" ∧
    compositeName (Kind.server "AnicknameB")
        = compositeName (Kind.query "A" "B") ∧
    (∀ env, path env (Kind.server "AchannelB")
        = path env (Kind.channel "A" "B")) := by
  have h1 : compositeName (Kind.server "AchannelB")
      = compositeName (Kind.channel "A" "B") := by decide
  refine ⟨by decide, h1, by decide, by decide, fun env => ?_⟩
  unfold path
  rw [h1]

/-- C3: load returns the default record without error both when the file
read fails and when the content fails to parse; load can only fail for
directory-resolution reasons. -/
theorem load_default_on_missing_or_corrupt :
    (∀ env store kind, env.dirOk = true →
        (store (compositeName kind) = .readFailure ∨
          store (compositeName kind) = .ok .corrupt) →
        load env store kind = .ok Metadata.default) ∧
    (∀ env store kind e, load env store kind = .error e →
        env.dirOk = false ∧ e = .directory) := by
  constructor
  · intro env store kind hdir hcase
    rw [load_dirOk env store kind hdir]
    unfold loadResult
    rcases hcase with h | h <;> simp [h, deserialize]
  · intro env store kind e h
    cases hdir : env.dirOk with
    | true =>
      rw [load_dirOk env store kind hdir] at h
      exact Except.noConfusion h
    | false =>
      rw [load_dirBad env store kind hdir] at h
      injection h with he
      exact ⟨rfl, he.symm⟩

/-- Witness for C3 at a concrete input: a corrupt file loads as the
default record. -/
theorem load_default_on_missing_or_corrupt_witness :
    load ⟨true, fun _ => false⟩ (fun _ => .ok .corrupt) Kind.logs
      = .ok Metadata.default :=
  load_default_on_missing_or_corrupt.1 ⟨true, fun _ => false⟩
    (fun _ => .ok .corrupt) Kind.logs rfl (Or.inr rfl)

/-- C2: a successful save followed by load returns a record whose
`read_marker` is the given marker truncated to millisecond precision and
whose derived fields are `latest_triggers_unread` and
`latest_can_reference` of the message list. -/
theorem save_load_roundtrip :
    ∀ env store kind messages (T : ReadMarker),
      (save env store kind messages (some T)).1 = .ok () →
      load env (save env store kind messages (some T)).2 kind
        = .ok { read_marker := some T.truncToMillis,
                last_triggers_unread := latest_triggers_unread messages,
                chathistory_references := latest_can_reference messages } := by
  intro env store kind messages T h
  cases hser : env.serFails (savedMetadata messages (some T)) with
  | true => simp [save, serialize, hser] at h
  | false =>
    cases hdir : env.dirOk with
    | false => simp [save, serialize, hser, path, hdir] at h
    | true =>
      have h2 : (save env store kind messages (some T)).2
          = Store.write store (compositeName kind)
              (.valid (savedMetadata messages (some T))) := by
        simp [save, serialize, hser, path, hdir]
      rw [h2, load_after_write env store kind _ hdir]
      rfl

/-- Witness for C2 at a concrete input: saving marker 5 over an empty
store and loading it back. -/
theorem save_load_roundtrip_witness :
    load ⟨true, fun _ => false⟩
        (save ⟨true, fun _ => false⟩ (fun _ => .readFailure) Kind.logs []
          (some ⟨5⟩)).2 Kind.logs
      = .ok { read_marker := some (ReadMarker.truncToMillis ⟨5⟩),
              last_triggers_unread := latest_triggers_unread [],
              chathistory_references := latest_can_reference [] } :=
  save_load_roundtrip ⟨true, fun _ => false⟩ (fun _ => .readFailure)
    Kind.logs [] ⟨5⟩ rfl

/-- C1: update is guarded by the stored marker: a candidate not exceeding
a stored marker is a successful no-op; applying update twice with the same
marker yields the same stored state as once; a successful update never
decreases the stored read marker. -/
theorem update_monotonic_idempotent :
    (∀ env store kind (T1 T2 : ReadMarker) m,
        load env store kind = .ok m → m.read_marker = some T1 →
        T2.time ≤ T1.time →
        update env store kind T2 = (.ok (), store)) ∧
    (∀ env store kind (T : ReadMarker),
        (update env (update env store kind T).2 kind T).2
          = (update env store kind T).2) ∧
    (∀ env store kind (T T0 : ReadMarker) m m',
        load env store kind = .ok m → m.read_marker = some T0 →
        (update env store kind T).1 = .ok () →
        load env (update env store kind T).2 kind = .ok m' →
        ∃ T', m'.read_marker = some T' ∧ T0.time ≤ T'.time) := by
  have noop : ∀ env store kind (T1 T2 : ReadMarker) m,
      load env store kind = .ok m → m.read_marker = some T1 →
      T2.time ≤ T1.time → update env store kind T2 = (.ok (), store) := by
    intro env store kind T1 T2 m hload hrm hle
    simp [update, hload, hrm, Option.any, ReadMarker.ble, hle]
  refine ⟨noop, ?_, ?_⟩
  · intro env store kind T
    rcases update_cases env store kind T with h | ⟨m, hload, hg, hok, h2⟩
    · rw [h]
      exact h
    · have hdir := load_ok_dirOk env store kind m hload
      have hl2 := load_after_write env store kind (updatedMetadata m T) hdir
      have hno := noop env _ kind T T (updatedMetadata m T) hl2 rfl (le_refl _)
      rw [h2, hno]
  · intro env store kind T T0 m m' hload hrm hok hload2
    rcases update_cases env store kind T with h | ⟨m1, hload1, hg, hok1, h2⟩
    · rw [h, hload] at hload2
      injection hload2 with hmm
      exact ⟨T0, hmm ▸ hrm, le_refl _⟩
    · rw [hload] at hload1
      injection hload1 with hmm
      subst hmm
      have hdir := load_ok_dirOk env store kind m hload
      rw [h2, load_after_write env store kind _ hdir] at hload2
      injection hload2 with h'
      refine ⟨T, ?_, ?_⟩
      · rw [← h']
        rfl
      · rw [hrm] at hg
        simp [Option.any, ReadMarker.ble] at hg
        exact le_of_lt hg

/-- Witness for C1 at a concrete input: with marker 2 stored, updating
with marker 1 is a successful no-op. -/
theorem update_monotonic_idempotent_witness :
    update ⟨true, fun _ => false⟩
        (fun _ => .ok (.valid ⟨some ⟨2⟩, Option.none, Option.none⟩))
        Kind.logs ⟨1⟩
      = (.ok (), fun _ => .ok (.valid ⟨some ⟨2⟩, Option.none, Option.none⟩)) :=
  update_monotonic_idempotent.1 ⟨true, fun _ => false⟩
    (fun _ => .ok (.valid ⟨some ⟨2⟩, Option.none, Option.none⟩)) Kind.logs
    ⟨2⟩ ⟨1⟩ ⟨some ⟨2⟩, Option.none, Option.none⟩ rfl rfl (by decide)

/-- C8: a successful update that writes (candidate strictly above the
stored marker, or no marker stored) stores a record keeping
`last_triggers_unread` and `chathistory_references` of the loaded record
and replacing only `read_marker`. -/
theorem update_preserves_derived_fields :
    ∀ env store kind (T : ReadMarker) m,
      load env store kind = .ok m →
      (m.read_marker = Option.none ∨
        ∃ T0, m.read_marker = some T0 ∧ T0.time < T.time) →
      (update env store kind T).1 = .ok () →
      (update env store kind T).2 (compositeName kind)
        = .ok (.valid { read_marker := some T,
                        last_triggers_unread := m.last_triggers_unread,
                        chathistory_references := m.chathistory_references }) := by
  intro env store kind T m hload hcond hok
  have hg : m.read_marker.any (fun stored => ReadMarker.ble T stored)
      = false := by
    rcases hcond with h | ⟨T0, h, hlt⟩ <;> rw [h]
    · rfl
    · simp [Option.any, ReadMarker.ble]
      exact hlt
  cases hser : env.serFails (updatedMetadata m T) with
  | true =>
    exfalso
    simp [update, hload, hg, serialize, hser] at hok
  | false =>
    have hdir := load_ok_dirOk env store kind m hload
    have h2 : (update env store kind T).2
        = Store.write store (compositeName kind)
            (.valid (updatedMetadata m T)) := by
      simp [update, hload, hg, serialize, hser, path, hdir]
    rw [h2]
    simp [Store.write, updatedMetadata]

/-- Witness for C8 at a concrete input: with marker 2 and empty derived
fields stored, updating with marker 7 writes marker 7 and keeps the
derived fields. -/
theorem update_preserves_derived_fields_witness :
    (update ⟨true, fun _ => false⟩
        (fun _ => .ok (.valid ⟨some ⟨2⟩, Option.none, Option.none⟩))
        Kind.logs ⟨7⟩).2 (compositeName Kind.logs)
      = .ok (.valid { read_marker := some ⟨7⟩,
                      last_triggers_unread := Option.none,
                      chathistory_references := Option.none }) :=
  update_preserves_derived_fields ⟨true, fun _ => false⟩
    (fun _ => .ok (.valid ⟨some ⟨2⟩, Option.none, Option.none⟩)) Kind.logs
    ⟨7⟩ ⟨some ⟨2⟩, Option.none, Option.none⟩ rfl
    (Or.inr ⟨⟨2⟩, rfl, by decide⟩) rfl

/-- C10: serialization happens before path resolution and the write in
both save and update, so on a serialization or directory-resolution error
the filesystem is unchanged; in particular a serialization failure is
reported as such even when directory resolution would also fail. -/
theorem save_update_error_preserves_store :
    (∀ env store kind messages rm e,
        (save env store kind messages rm).1 = .error e →
        (save env store kind messages rm).2 = store) ∧
    (∀ env store kind (T : ReadMarker) e,
        (update env store kind T).1 = .error e →
        (update env store kind T).2 = store) ∧
    (∀ env store kind messages rm,
        env.serFails (savedMetadata messages rm) = true →
        (save env store kind messages rm).1 = .error .serde) := by
  refine ⟨?_, ?_, ?_⟩
  · intro env store kind messages rm e h
    cases hser : env.serFails (savedMetadata messages rm) with
    | true => simp [save, serialize, hser]
    | false =>
      cases hdir : env.dirOk with
      | false => simp [save, serialize, hser, path, hdir]
      | true =>
        exfalso
        simp [save, serialize, hser, path, hdir] at h
  · intro env store kind T e h
    rcases update_cases env store kind T with h2 | ⟨m, hload, hg, hok, h2⟩
    · exact h2
    · rw [hok] at h
      exact Except.noConfusion h
  · intro env store kind messages rm hser
    simp [save, serialize, hser]

/-- Witness for C10 at a concrete input: with a failing serializer and a
failing directory resolver, save reports the serialization error and both
save and update leave the filesystem unchanged. -/
theorem save_update_error_preserves_store_witness :
    (save ⟨false, fun _ => true⟩ (fun _ => .readFailure) Kind.logs []
        Option.none).1 = .error .serde ∧
    (save ⟨false, fun _ => true⟩ (fun _ => .readFailure) Kind.logs []
        Option.none).2 = (fun _ => .readFailure) ∧
    (update ⟨false, fun _ => true⟩ (fun _ => .readFailure) Kind.logs
        ⟨1⟩).2 = (fun _ => .readFailure) :=
  ⟨save_update_error_preserves_store.2.2 ⟨false, fun _ => true⟩
      (fun _ => .readFailure) Kind.logs [] Option.none rfl,
    save_update_error_preserves_store.1 ⟨false, fun _ => true⟩
      (fun _ => .readFailure) Kind.logs [] Option.none .serde rfl,
    save_update_error_preserves_store.2.1 ⟨false, fun _ => true⟩
      (fun _ => .readFailure) Kind.logs ⟨1⟩ .directory rfl⟩

end HalloyMetadata
